import Mathlib

/-!
Verification of the gibson_demos record-and-replay log specification.

The spec describes a deterministic action/state record-and-replay log
(the IGLogWriter / IGLogReader concept exercised by
src/gibson2/examples/demo/vr_demos/data_save_replay/vr_sr.py), plus the
small Pose cached-state class in src/gibson2/object_states/pose.py.
The Recorder/Player implementation itself (gibson2/utils/ig_logging.py) is
not part of the visible source fragment, so it is modelled here from the
spec; the Pose class and the demo driver are embedded from the source.
-/

set_option autoImplicit false
set_option linter.unusedVariables false

namespace GibsonLog

/-- Kind of a recorded channel: an action or a state value. -/
inductive ChannelKind where
  | action
  | state
  deriving DecidableEq, Repr

/-- Modelled from the spec: a Channel is a named, typed slot for one recorded
quantity, with a unique string path, a fixed shape, and a kind (missing
source: gibson2/utils/ig_logging.py). -/
structure Channel where
  path : String
  shape : List Nat
  kind : ChannelKind
  deriving DecidableEq, Repr

/-- A recorded value: a flat array of integers (the demo records integer
action arrays; equality of values is exact). -/
abbrev Value := List Int

/-- The assignments made by set_value calls during one tick, in call order. -/
abbrev FrameInput := List (String × Value)

/-- Modelled from the spec: a Frame holds one value per registered channel,
stored in registered channel order (missing source:
gibson2/utils/ig_logging.py). -/
abbrev Frame := List (String × Value)

/-- Zero-filled default value for a channel of the given shape (the
documented policy choice for channels not set during a tick). -/
def zeroValue (shape : List Nat) : Value :=
  List.replicate shape.prod 0

/-- Modelled from the spec: closing a frame takes, for each channel in
registered order, the most recently set value this tick, or the zero-filled
default (missing source: gibson2/utils/ig_logging.py). -/
def mkFrame (schema : List Channel) (cur : List (String × Value)) : Frame :=
  schema.map (fun c => (c.path, (cur.lookup c.path).getD (zeroValue c.shape)))

/-- Errors raised by Recorder operations, as named in the spec. -/
inductive RecError where
  | duplicateChannelError
  | schemaFrozenError
  | schemaAlreadyFinalizedError
  | unknownChannelError
  | shapeMismatchError
  deriving DecidableEq, Repr

/-- Modelled from the spec: the Recorder buffers per-frame values registered
under string paths and flushes them to storage in fixed-size batches
(missing source: gibson2/utils/ig_logging.py, class IGLogWriter).
`written` records the physical write calls performed so far, one batch per
call. -/
structure Recorder where
  schema : List Channel
  frozen : Bool
  framesBeforeWrite : Nat
  configBlob : String
  metadataWritten : Bool
  current : List (String × Value)
  batch : List Frame
  written : List (List Frame)
  frameIndex : Nat
  closed : Bool
  deriving DecidableEq, Repr

/-- Modelled from the spec: a freshly constructed Recorder with the given
batch size and opaque configuration blob; no channels registered, schema not
frozen, nothing buffered or written. -/
def Recorder.create (framesBeforeWrite : Nat) (configBlob : String) : Recorder :=
  ⟨[], false, framesBeforeWrite, configBlob, false, [], [], [], 0, false⟩

/-- Modelled from the spec: `register_channel(path, shape, kind)` declares a
channel; fails with SchemaFrozenError after storage setup has completed
(regardless of path), else with DuplicateChannelError if the path is already
registered (missing source: gibson2/utils/ig_logging.py). -/
def Recorder.register_channel (r : Recorder) (path : String) (shape : List Nat)
    (kind : ChannelKind) : Except RecError Recorder :=
  if r.frozen then .error .schemaFrozenError
  else if (r.schema.map Channel.path).contains path then .error .duplicateChannelError
  else .ok { r with schema := r.schema ++ [⟨path, shape, kind⟩] }

/-- Modelled from the spec: `finalize_schema()` freezes the channel set and
performs the one-time metadata write; calling it twice is an error.
Policy choice documented here: empty schemas are allowed (the demo itself
registers one action channel but the script notes states-only logs exist). -/
def Recorder.finalize_schema (r : Recorder) : Except RecError Recorder :=
  if r.frozen then .error .schemaAlreadyFinalizedError
  else .ok { r with frozen := true, metadataWritten := true }

/-- Modelled from the spec: `set_value(path, value)` stores the value for the
path into the current in-progress frame; UnknownChannelError if the path was
never registered, ShapeMismatchError if the value's shape disagrees with the
channel's declared shape (missing source: gibson2/utils/ig_logging.py). -/
def Recorder.set_value (r : Recorder) (path : String) (v : Value) :
    Except RecError Recorder :=
  match r.schema.find? (fun c => c.path == path) with
  | none => .error .unknownChannelError
  | some c =>
    if v.length = c.shape.prod then .ok { r with current := (path, v) :: r.current }
    else .error .shapeMismatchError

/-- Modelled from the spec: `commit_frame()` closes the current frame,
appends it to the active batch, advances the frame index, and performs one
physical write of the whole batch exactly when the batch has reached
`frames_before_write` frames (missing source: gibson2/utils/ig_logging.py,
IGLogWriter.process_frame). -/
def Recorder.commit_frame (r : Recorder) : Recorder :=
  let f := mkFrame r.schema r.current
  let b := r.batch ++ [f]
  if b.length = r.framesBeforeWrite then
    { r with current := [], batch := [],
             written := r.written ++ [b], frameIndex := r.frameIndex + 1 }
  else
    { r with current := [], batch := b, frameIndex := r.frameIndex + 1 }

/-- Modelled from the spec: `close()` flushes any partial batch, even if
smaller than `frames_before_write`, and releases the storage resource
(missing source: gibson2/utils/ig_logging.py, IGLogWriter.end_log_session). -/
def Recorder.close (r : Recorder) : Recorder :=
  if r.batch.isEmpty then { r with closed := true }
  else { r with batch := [], written := r.written ++ [r.batch], closed := true }

/-- All frames committed so far: the physically written batches in order,
followed by the in-memory partial batch. -/
def Recorder.allFrames (r : Recorder) : List Frame :=
  r.written.flatten ++ r.batch

/-- Modelled from the spec: the persisted file layout carries the channel
schema, the opaque configuration blob, and the sequence of written batches
(missing source: the HDF5 layout used by gibson2/utils/ig_logging.py). -/
structure Storage where
  schema : List Channel
  metadataBlob : String
  batches : List (List Frame)
  deriving DecidableEq, Repr

/-- The storage produced by a Recorder: its physical write calls in order,
together with the schema and the configuration blob written at
finalize_schema time. -/
def Recorder.storage (r : Recorder) : Storage :=
  ⟨r.schema, r.configBlob, r.written⟩

/-- Applies a list of set_value calls in order (one tick's assignments). -/
def Recorder.apply_input (r : Recorder) (inp : FrameInput) : Except RecError Recorder :=
  match inp with
  | [] => .ok r
  | (p, v) :: rest =>
    match r.set_value p v with
    | .error e => .error e
    | .ok r1 => r1.apply_input rest

/-- Runs a whole save session from the given Recorder state: for each tick,
apply that tick's set_value calls and commit the frame; finally close.
Mirrors the save branch of run_action_sr in
src/gibson2/examples/demo/vr_demos/data_save_replay/vr_sr.py lines 156-176. -/
def Recorder.run_save (r : Recorder) (inputs : List FrameInput) :
    Except RecError Recorder :=
  match inputs with
  | [] => .ok r.close
  | inp :: rest =>
    match r.apply_input inp with
    | .error e => .error e
    | .ok r1 => r1.commit_frame.run_save rest

/-- Iterates commit_frame n times (frames committed with no set_value calls
in between; the write count depends only on the number of commits). -/
def Recorder.commitN (r : Recorder) (n : Nat) : Recorder :=
  match n with
  | 0 => r
  | n + 1 => r.commit_frame.commitN n

/-- Checks that every assignment of one tick names a registered channel and
matches its declared shape, so that every set_value call succeeds. -/
def inputOK (schema : List Channel) (inp : FrameInput) : Bool :=
  inp.all (fun pv =>
    match schema.find? (fun c => c.path == pv.1) with
    | some c => pv.2.length == c.shape.prod
    | none => false)

/-- Errors raised by Player operations, as named in the spec. -/
inductive PlayError where
  | endOfLogError
  | unknownChannelError
  | noCurrentFrame
  | corruptLogError
  deriving DecidableEq, Repr

/-- Modelled from the spec: the Player exposes the persisted frames
path-addressed, frame-by-frame in original order (missing source:
gibson2/utils/ig_logging.py, class IGLogReader). `cursor` is the read
cursor: the number of advance_frame calls completed so far. -/
structure Player where
  schema : List Channel
  metadataBlob : String
  frames : List Frame
  cursor : Nat
  deriving DecidableEq, Repr

/-- Modelled from the spec: `open(source)` reads the metadata block from
storage and positions the read cursor before the first frame; the frames of
all written batches are exposed in order (missing source:
gibson2/utils/ig_logging.py). -/
def Player.openLog (st : Storage) : Player :=
  ⟨st.schema, st.metadataBlob, st.batches.flatten, 0⟩

/-- Modelled from the spec: `read_metadata_blob()` returns the opaque
configuration blob recorded at save time, unmodified; pure accessor with no
side effect, so the Player state is returned unchanged. -/
def Player.read_metadata_blob (pl : Player) : String × Player :=
  (pl.metadataBlob, pl)

/-- Modelled from the spec: `has_next_frame()` is true exactly while the
read cursor is below the total recorded frame count. -/
def Player.has_next_frame (pl : Player) : Bool :=
  pl.cursor < pl.frames.length

/-- Modelled from the spec: `advance_frame()` advances the read cursor by
one; fails with EndOfLogError when has_next_frame is false (missing source:
gibson2/utils/ig_logging.py). -/
def Player.advance_frame (pl : Player) : Except PlayError Player :=
  if pl.cursor < pl.frames.length then .ok { pl with cursor := pl.cursor + 1 }
  else .error .endOfLogError

/-- Modelled from the spec: `read_value(path)` returns the value for the
path in the current frame (the frame most recently advanced to); fails with
UnknownChannelError if the path was never registered in the schema (missing
source: gibson2/utils/ig_logging.py). -/
def Player.read_value (pl : Player) (path : String) : Except PlayError Value :=
  if (pl.schema.map Channel.path).contains path then
    if pl.cursor = 0 then .error .noCurrentFrame
    else
      match pl.frames[pl.cursor - 1]? with
      | none => .error .endOfLogError
      | some f =>
        match f.lookup path with
        | some v => .ok v
        | none => .error .unknownChannelError
  else .error .unknownChannelError

/-- Iterates advance_frame n times, failing as soon as one call fails. -/
def Player.advanceN (pl : Player) (n : Nat) : Except PlayError Player :=
  match n with
  | 0 => .ok pl
  | n + 1 =>
    match pl.advance_frame with
    | .error e => .error e
    | .ok pl1 => pl1.advanceN n

/-- Replays the log like the replay branch of run_action_sr (vr_sr.py lines
177-193): while frames remain, advance and read the named channel,
collecting the values in order. `fuel` bounds the loop. -/
def Player.replayValues (pl : Player) (path : String) (fuel : Nat) : List Value :=
  match fuel with
  | 0 => []
  | fuel + 1 =>
    if pl.has_next_frame then
      match pl.advance_frame with
      | .ok pl1 =>
        match pl1.read_value path with
        | .ok v => v :: pl1.replayValues path fuel
        | .error _ => []
      | .error _ => []
    else []

end GibsonLog

namespace GibsonPose

/-- State of a Pose object from src/gibson2/object_states/pose.py: the
cached (position, orientation) pair maintained by the CachingEnabledObjectState
base class, or none when not yet computed. -/
structure PoseState where
  cachedValue : Option (List Int × List Int)
  deriving DecidableEq, Repr

/-- The error raised by Pose._set_value. -/
inductive PoseError where
  | notImplementedError (msg : String)
  deriving DecidableEq, Repr

/-- Embeds Pose._set_value (pose.py lines 12-13): unconditionally raises
NotImplementedError; the state component of the result is the unchanged
input state. -/
def Pose.set_value (s : PoseState) (newValue : List Int × List Int) :
    PoseState × Except PoseError Unit :=
  (s, .error (.notImplementedError "Pose state currently does not support setting."))

/-- Embeds Pose._dump (pose.py lines 16-17): returns None. -/
def Pose.dump (s : PoseState) : Option (List Int × List Int) :=
  none

/-- Embeds Pose._load (pose.py lines 19-20): returns without touching the
state, whatever the data argument is. -/
def Pose.load {α : Type} (s : PoseState) (data : α) : PoseState :=
  s

end GibsonPose

namespace VrSr

/-- The error raised by a failed Python assert statement. -/
inductive SRError where
  | assertionError
  deriving DecidableEq, Repr

/-- Embeds the entry assertion of run_action_sr (vr_sr.py line 46):
the assert passes exactly when the mode string is save or replay. -/
def modeAssert (mode : String) : Bool :=
  mode == "save" || mode == "replay"

/-- Embeds the entry of run_action_sr (vr_sr.py lines 46-47): the assert is
the first statement of the function; on failure AssertionError is raised
before any other action, on success `is_save` is computed as
mode == save. -/
def run_action_sr_entry (mode : String) : Except SRError Bool :=
  if modeAssert mode then .ok (mode == "save") else .error .assertionError

end VrSr

namespace GibsonLog

/-- The concrete scenario of the spec: one channel "mock_action" of shape
(1,) and kind ACTION, batch size 2, three frames each carrying the value
[1], then close. -/
def demoRecorder : Except RecError Recorder := do
  let r0 := Recorder.create 2 "vr_settings"
  let r1 ← r0.register_channel "mock_action" [1] .action
  let r2 ← r1.finalize_schema
  r2.run_save [[("mock_action", [1])], [("mock_action", [1])], [("mock_action", [1])]]

/-- Observable outcome of the concrete scenario: the number of physical
writes, the sizes of the written batches, and the sequence of values read
back for "mock_action" during replay. -/
def demoResult : Option (Nat × List Nat × List Value) :=
  match demoRecorder with
  | .error _ => none
  | .ok r =>
    some (r.written.length, r.written.map List.length,
      (Player.openLog r.storage).replayValues "mock_action" 3)

/-- A concrete finalized Recorder with one registered channel, used to
instantiate the round-trip theorem. -/
def rtRecorder : Recorder :=
  ⟨[⟨"a", [1], .action⟩], true, 2, "cfg", true, [], [], [], 0, false⟩

/-- Three concrete ticks of assignments for the round-trip instance. -/
def rtInputs : List FrameInput :=
  [[("a", [3])], [("a", [4])], [("a", [5])]]

/-- A tiny concrete Player holding one frame, cursor before it. -/
def plTiny : Player := ⟨[], "m", [[]], 0⟩

/-- The same tiny Player after one advance_frame. -/
def plTiny1 : Player := ⟨[], "m", [[]], 1⟩

/-- A fresh concrete Recorder with batch size 2, used to instantiate the
batch-flush-count theorem. -/
def c3Recorder : Recorder := Recorder.create 2 "cfg"

/-- A fresh concrete Recorder used to instantiate the schema-freeze
theorem. -/
def c5Recorder : Recorder := Recorder.create 1 "blob"

/-- The same Recorder after finalize_schema completes. -/
def c5RecorderFrozen : Recorder :=
  { c5Recorder with frozen := true, metadataWritten := true }

/-- A concrete Storage holding one written batch of five frames, used to
instantiate the end-of-log theorem. -/
def st5 : Storage := ⟨[], "m", [[[], [], [], [], []]]⟩

end GibsonLog

open GibsonLog GibsonPose VrSr

/-- Lookup in an appended association list: the left list wins. -/
theorem lookup_append (a b : List (String × Value)) (p : String) :
    (a ++ b).lookup p =
      match a.lookup p with
      | some v => some v
      | none => b.lookup p := by
  induction a with
  | nil => rfl
  | cons hd tl ih =>
    obtain ⟨k, v⟩ := hd
    by_cases h : p = k
    · simp [List.lookup, h]
    · have hb : (p == k) = false := beq_eq_false_iff_ne.mpr h
      simp [List.lookup, hb, ih]

/-- Lookup misses when the key is not among the keys of the list. -/
theorem lookup_eq_none_of_not_mem_keys (l : List (String × Value)) (p : String)
    (h : p ∉ l.map Prod.fst) : l.lookup p = none := by
  induction l with
  | nil => rfl
  | cons hd tl ih =>
    obtain ⟨k, v⟩ := hd
    simp only [List.map_cons, List.mem_cons] at h
    push_neg at h
    have hb : (p == k) = false := beq_eq_false_iff_ne.mpr h.1
    simp [List.lookup, hb, ih h.2]

/-- A successful lookup exhibits a member pair of the list. -/
theorem lookup_mem (l : List (String × Value)) (p : String) (v : Value)
    (h : l.lookup p = some v) : (p, v) ∈ l := by
  induction l with
  | nil => simp [List.lookup] at h
  | cons hd tl ih =>
    obtain ⟨k, w⟩ := hd
    by_cases hk : p = k
    · subst hk
      simp [List.lookup] at h
      simp [h]
    · have hb : (p == k) = false := beq_eq_false_iff_ne.mpr hk
      simp [List.lookup, hb] at h
      exact List.mem_cons_of_mem _ (ih h)

/-- When the keys are distinct, lookup in the reversed list agrees with
lookup in the list: the tick's single assignment per path is found either
way. -/
theorem lookup_reverse_of_nodup_keys (l : List (String × Value)) (p : String)
    (h : (l.map Prod.fst).Nodup) : l.reverse.lookup p = l.lookup p := by
  induction l with
  | nil => rfl
  | cons hd tl ih =>
    obtain ⟨k, v⟩ := hd
    simp only [List.map_cons, List.nodup_cons] at h
    rw [List.reverse_cons, lookup_append, ih h.2]
    by_cases hk : p = k
    · subst hk
      rw [lookup_eq_none_of_not_mem_keys tl p h.1]
      simp [List.lookup]
    · have hb : (p == k) = false := beq_eq_false_iff_ne.mpr hk
      simp only [List.lookup, hb]
      cases htl : tl.lookup p <;> simp

/-- Lookup in a closed frame follows the first schema channel carrying the
path: the set value when one was set this tick, the zero default
otherwise. -/
theorem lookup_mkFrame (schema : List Channel) (cur : List (String × Value))
    (p : String) :
    (mkFrame schema cur).lookup p =
      (schema.find? (fun c => c.path == p)).map
        (fun c => (cur.lookup c.path).getD (zeroValue c.shape)) := by
  induction schema with
  | nil => rfl
  | cons c s ih =>
    by_cases h : c.path = p
    · simp [mkFrame, List.lookup, List.find?, h]
    · have hb1 : (p == c.path) = false := beq_eq_false_iff_ne.mpr fun he => h he.symm
      have hb2 : (c.path == p) = false := beq_eq_false_iff_ne.mpr h
      simp only [mkFrame, List.map_cons, List.lookup, List.find?, hb1, hb2]
      exact ih

/-- commit_frame leaves the schema unchanged. -/
theorem commit_frame_schema (r : Recorder) : r.commit_frame.schema = r.schema := by
  simp only [Recorder.commit_frame]
  split <;> rfl

/-- commit_frame clears the in-progress values. -/
theorem commit_frame_current (r : Recorder) : r.commit_frame.current = [] := by
  simp only [Recorder.commit_frame]
  split <;> rfl

/-- commit_frame leaves the batch size setting unchanged. -/
theorem commit_frame_fbw (r : Recorder) :
    r.commit_frame.framesBeforeWrite = r.framesBeforeWrite := by
  simp only [Recorder.commit_frame]
  split <;> rfl

/-- commit_frame leaves the configuration blob unchanged. -/
theorem commit_frame_configBlob (r : Recorder) :
    r.commit_frame.configBlob = r.configBlob := by
  simp only [Recorder.commit_frame]
  split <;> rfl

/-- commit_frame advances the frame index by exactly one. -/
theorem commit_frame_frameIndex (r : Recorder) :
    r.commit_frame.frameIndex = r.frameIndex + 1 := by
  simp only [Recorder.commit_frame]
  split <;> rfl

/-- commit_frame appends exactly the closed current frame at the end of the
committed sequence, whether or not it flushes. -/
theorem commit_frame_allFrames (r : Recorder) :
    r.commit_frame.allFrames = r.allFrames ++ [mkFrame r.schema r.current] := by
  simp only [Recorder.commit_frame, Recorder.allFrames]
  split
  · simp [List.flatten_append]
  · simp [List.append_assoc]

/-- The batch length after commit_frame: cleared on a flush, grown by one
otherwise. -/
theorem commit_frame_batch_length (r : Recorder) :
    r.commit_frame.batch.length =
      if r.batch.length + 1 = r.framesBeforeWrite then 0
      else r.batch.length + 1 := by
  simp only [Recorder.commit_frame]
  split <;> rename_i h <;> simp_all

/-- The physical write count after commit_frame: grown by one exactly on a
flush. -/
theorem commit_frame_written_length (r : Recorder) :
    r.commit_frame.written.length =
      if r.batch.length + 1 = r.framesBeforeWrite then r.written.length + 1
      else r.written.length := by
  simp only [Recorder.commit_frame]
  split <;> rename_i h <;> simp_all

/-- close performs one more physical write exactly when a partial batch
remains. -/
theorem close_written_length (r : Recorder) :
    r.close.written.length =
      if r.batch.length = 0 then r.written.length else r.written.length + 1 := by
  simp only [Recorder.close]
  split <;> rename_i h <;> simp_all

/-- After close, the storage holds every committed frame in order, and the
schema and configuration blob are unchanged. -/
theorem close_storage_frames (r : Recorder) :
    r.close.written.flatten = r.allFrames ∧ r.close.schema = r.schema ∧
    r.close.configBlob = r.configBlob := by
  simp only [Recorder.close, Recorder.allFrames]
  split <;> rename_i h
  · simp_all
  · simp [List.flatten_append]

/-- When every assignment of the tick names a registered channel with a
matching shape, every set_value call succeeds and the tick's assignments
accumulate (most recent first) on the in-progress frame; nothing else in
the Recorder changes. -/
theorem apply_input_ok (inp : FrameInput) :
    ∀ r : Recorder, inputOK r.schema inp = true →
      r.apply_input inp = .ok { r with current := inp.reverse ++ r.current } := by
  induction inp with
  | nil =>
    intro r h
    simp [Recorder.apply_input]
  | cons pv rest ih =>
    obtain ⟨p, v⟩ := pv
    intro r h
    simp only [inputOK, List.all_cons, Bool.and_eq_true] at h
    cases hfind : r.schema.find? (fun c => c.path == p) with
    | none => rw [hfind] at h; simp at h
    | some c =>
      rw [hfind] at h
      have hlen : v.length = c.shape.prod := by
        have := h.1
        simpa using this
      have hrest : inputOK r.schema rest = true := by
        simpa [inputOK] using h.2
      have hstep : r.set_value p v = .ok { r with current := (p, v) :: r.current } := by
        simp [Recorder.set_value, hfind, hlen]
      have ihr := ih { r with current := (p, v) :: r.current } (by simpa using hrest)
      simp only [Recorder.apply_input, hstep]
      rw [ihr]
      simp [List.reverse_cons, List.append_assoc]

/-- Running a save session from a Recorder whose in-progress frame is empty
succeeds when every tick's assignments are valid; the storage then holds the
closed frame of each tick in order after the frames already committed, and
the schema and configuration blob survive unchanged. -/
theorem run_save_ok (inputs : List FrameInput) :
    ∀ r : Recorder, r.current = [] →
      (∀ inp ∈ inputs, inputOK r.schema inp = true) →
      ∃ r2, r.run_save inputs = .ok r2 ∧
        r2.written.flatten =
          r.allFrames ++ inputs.map (fun inp => mkFrame r.schema inp.reverse) ∧
        r2.schema = r.schema ∧ r2.configBlob = r.configBlob := by
  induction inputs with
  | nil =>
    intro r hcur hok
    refine ⟨r.close, rfl, ?_, (close_storage_frames r).2.1,
      (close_storage_frames r).2.2⟩
    simp [(close_storage_frames r).1]
  | cons inp rest ih =>
    intro r hcur hok
    have h1 := apply_input_ok inp r (hok inp (by simp))
    have hmid : ({ r with current := inp.reverse ++ r.current } : Recorder).commit_frame.current = [] :=
      commit_frame_current _
    have hsch : ({ r with current := inp.reverse ++ r.current } : Recorder).commit_frame.schema = r.schema :=
      commit_frame_schema _
    have hok2 : ∀ i ∈ rest,
        inputOK ({ r with current := inp.reverse ++ r.current } : Recorder).commit_frame.schema i = true := by
      intro i hi
      rw [hsch]
      exact hok i (by simp [hi])
    obtain ⟨r2, hrun, hflat, hsc2, hcb2⟩ :=
      ih ({ r with current := inp.reverse ++ r.current } : Recorder).commit_frame hmid hok2
    refine ⟨r2, ?_, ?_, by rw [hsc2, hsch], ?_⟩
    · simp only [Recorder.run_save, h1]
      exact hrun
    · rw [hflat, hsch]
      have hall := commit_frame_allFrames ({ r with current := inp.reverse ++ r.current } : Recorder)
      have : ({ r with current := inp.reverse ++ r.current } : Recorder).allFrames = r.allFrames := rfl
      rw [hall, this]
      simp [hcur, List.append_assoc]
    · rw [hcb2, commit_frame_configBlob]

/-- advance_frame succeeds n times in a row exactly while frames remain,
moving the cursor forward by n and touching nothing else. -/
theorem advanceN_ok (n : Nat) :
    ∀ pl : Player, pl.cursor + n ≤ pl.frames.length →
      pl.advanceN n = .ok { pl with cursor := pl.cursor + n } := by
  induction n with
  | zero =>
    intro pl h
    simp [Player.advanceN]
  | succ n ih =>
    intro pl h
    have hlt : pl.cursor < pl.frames.length := by omega
    have hstep : pl.advance_frame = .ok { pl with cursor := pl.cursor + 1 } := by
      simp [Player.advance_frame, hlt]
    have ihr := ih { pl with cursor := pl.cursor + 1 } (by simp; omega)
    simp only [Player.advanceN, hstep]
    rw [ihr]
    have e : pl.cursor + 1 + n = pl.cursor + (n + 1) := by omega
    simp [e]

/-- Write counting: starting below the batch boundary, after n commits the
partial batch and the physical write count follow division by the batch
size. -/
theorem commitN_counts (n : Nat) :
    ∀ r : Recorder, 0 < r.framesBeforeWrite →
      r.batch.length < r.framesBeforeWrite →
      (r.commitN n).framesBeforeWrite = r.framesBeforeWrite ∧
      (r.commitN n).batch.length = (r.batch.length + n) % r.framesBeforeWrite ∧
      (r.commitN n).written.length =
        r.written.length + (r.batch.length + n) / r.framesBeforeWrite := by
  induction n with
  | zero =>
    intro r hB hlt
    refine ⟨rfl, ?_, ?_⟩
    · simp [Recorder.commitN, Nat.mod_eq_of_lt hlt]
    · simp [Recorder.commitN, Nat.div_eq_of_lt hlt]
  | succ n ih =>
    intro r hB hlt
    have hfbw := commit_frame_fbw r
    have hbl := commit_frame_batch_length r
    have hwl := commit_frame_written_length r
    by_cases hfull : r.batch.length + 1 = r.framesBeforeWrite
    · rw [if_pos hfull] at hbl hwl
      have hlt2 : r.commit_frame.batch.length < r.commit_frame.framesBeforeWrite := by
        rw [hbl, hfbw]; exact hB
      obtain ⟨i1, i2, i3⟩ := ih r.commit_frame (by rw [hfbw]; exact hB) hlt2
      refine ⟨?_, ?_, ?_⟩
      · show (r.commit_frame.commitN n).framesBeforeWrite = _
        rw [i1, hfbw]
      · show (r.commit_frame.commitN n).batch.length = _
        rw [i2, hbl, hfbw]
        have e1 : r.batch.length + (n + 1) = r.framesBeforeWrite + n := by omega
        rw [e1, Nat.add_mod_left, Nat.zero_add]
      · show (r.commit_frame.commitN n).written.length = _
        rw [i3, hbl, hwl, hfbw]
        have e1 : r.batch.length + (n + 1) = n + r.framesBeforeWrite := by omega
        rw [e1, Nat.add_div_right _ hB, Nat.zero_add]
        omega
    · rw [if_neg hfull] at hbl hwl
      have hlt2 : r.commit_frame.batch.length < r.commit_frame.framesBeforeWrite := by
        rw [hbl, hfbw]; omega
      obtain ⟨i1, i2, i3⟩ := ih r.commit_frame (by rw [hfbw]; exact hB) hlt2
      have e1 : r.batch.length + 1 + n = r.batch.length + (n + 1) := by omega
      refine ⟨?_, ?_, ?_⟩
      · show (r.commit_frame.commitN n).framesBeforeWrite = _
        rw [i1, hfbw]
      · show (r.commit_frame.commitN n).batch.length = _
        rw [i2, hbl, hfbw, e1]
      · show (r.commit_frame.commitN n).written.length = _
        rw [i3, hbl, hwl, hfbw, e1]

/-- read_value succeeds with the frame's stored value once the cursor sits
past frame k, the path is registered, and frame k carries the value. -/
theorem read_value_ok (pl : Player) (p : String) (v : Value) (k : Nat)
    (f : Frame) (hcur : pl.cursor = k + 1)
    (hcont : (pl.schema.map Channel.path).contains p = true)
    (hframe : pl.frames[k]? = some f) (hlk : f.lookup p = some v) :
    pl.read_value p = .ok v := by
  simp [Player.read_value, hcont, hcur, hframe, hlk]
  simpa using hcont

/-- C1: round-trip: for every sequence of N frames committed through a
fresh Recorder under a fixed channel schema (every assignment naming a
registered channel with matching shape), the save session succeeds, a
Player opened on the resulting storage yields exactly N frames, and for
every registered path assigned at tick k (one assignment per path), reading
that path at frame k during replay returns exactly the value that was set
at tick k. -/
theorem C1_round_trip (r : Recorder) (inputs : List FrameInput)
    (hfresh : r.current = [] ∧ r.batch = [] ∧ r.written = [])
    (hok : ∀ inp ∈ inputs, inputOK r.schema inp = true) :
    ∃ r2, r.run_save inputs = .ok r2 ∧
      (Player.openLog r2.storage).frames.length = inputs.length ∧
      ∀ (k : Nat) (hk : k < inputs.length) (p : String) (v : Value),
        ((inputs[k]).map Prod.fst).Nodup →
        (inputs[k]).lookup p = some v →
        ∃ pl, (Player.openLog r2.storage).advanceN (k + 1) = .ok pl ∧
          pl.read_value p = .ok v := by
  obtain ⟨hcur, hbatch, hwritten⟩ := hfresh
  obtain ⟨r2, hrun, hflat, hsch, hcb⟩ := run_save_ok inputs r hcur hok
  have hall : r.allFrames = [] := by
    simp [Recorder.allFrames, hbatch, hwritten]
  have hframes : (Player.openLog r2.storage).frames =
      inputs.map (fun inp => mkFrame r.schema inp.reverse) := by
    simp [Player.openLog, Recorder.storage, hflat, hall]
  refine ⟨r2, hrun, by simp [hframes], ?_⟩
  intro k hk p v hnd hlook
  have hmem : (p, v) ∈ inputs[k] := lookup_mem _ p v hlook
  have hOK : inputOK r.schema (inputs[k]) = true :=
    hok _ (List.getElem_mem hk)
  have hOKp : (match r.schema.find? (fun c => c.path == p) with
      | some c => v.length == c.shape.prod
      | none => false) = true := by
    have := (List.all_eq_true.mp hOK) (p, v) hmem
    simpa [inputOK] using this
  cases hfind : r.schema.find? (fun c => c.path == p) with
  | none =>
    rw [hfind] at hOKp
    simp at hOKp
  | some c =>
    have hcp : c.path = p := by
      have hpred := List.find?_some hfind
      simpa using hpred
    have hcmem : c ∈ r.schema := List.mem_of_find?_eq_some hfind
    have hsch0 : (Player.openLog r2.storage).schema = r.schema := by
      simp [Player.openLog, Recorder.storage, hsch]
    have hpmem : p ∈ r.schema.map Channel.path := by
      rw [List.mem_map]
      exact ⟨c, hcmem, hcp⟩
    have hcont : ((Player.openLog r2.storage).schema.map Channel.path).contains p = true := by
      rw [hsch0]
      simpa using hpmem
    have hlenle : (Player.openLog r2.storage).cursor + (k + 1) ≤
        (Player.openLog r2.storage).frames.length := by
      show 0 + (k + 1) ≤ _
      rw [hframes, List.length_map]
      omega
    have hadv := advanceN_ok (k + 1) (Player.openLog r2.storage) hlenle
    refine ⟨_, hadv, ?_⟩
    have hcurs : ({ Player.openLog r2.storage with
        cursor := (Player.openLog r2.storage).cursor + (k + 1) } : Player).cursor = k + 1 := by
      show (Player.openLog r2.storage).cursor + (k + 1) = k + 1
      show 0 + (k + 1) = k + 1
      omega
    have hfr : ({ Player.openLog r2.storage with
        cursor := (Player.openLog r2.storage).cursor + (k + 1) } : Player).frames[k]? =
        some (mkFrame r.schema (inputs[k]).reverse) := by
      show (Player.openLog r2.storage).frames[k]? = _
      rw [hframes, List.getElem?_map, List.getElem?_eq_getElem hk]
      rfl
    have hlkf : (mkFrame r.schema (inputs[k]).reverse).lookup p = some v := by
      rw [lookup_mkFrame, hfind]
      show some (((inputs[k]).reverse.lookup c.path).getD (zeroValue c.shape)) = some v
      rw [hcp, lookup_reverse_of_nodup_keys _ _ hnd, hlook]
      rfl
    exact read_value_ok _ p v k _ hcurs hcont hfr hlkf

/-- Witness for C1 at a concrete one-channel schema and three concrete
ticks. -/
theorem C1_round_trip_witness :
    ∃ r2, rtRecorder.run_save rtInputs = .ok r2 ∧
      (Player.openLog r2.storage).frames.length = rtInputs.length ∧
      ∀ (k : Nat) (hk : k < rtInputs.length) (p : String) (v : Value),
        ((rtInputs[k]).map Prod.fst).Nodup →
        (rtInputs[k]).lookup p = some v →
        ∃ pl, (Player.openLog r2.storage).advanceN (k + 1) = .ok pl ∧
          pl.read_value p = .ok v :=
  C1_round_trip rtRecorder rtInputs (by decide) (by decide)

/-- C2: order preservation: a freshly opened Player has its read cursor at
0; every successful advance_frame moves the cursor forward by exactly one
over the unchanged frame sequence, so frame k is yielded only by the
(k+1)-th advance, after frame k-1; and the Recorder appends each committed
frame at the end of the log and advances the frame index by exactly one, so
no frame is skipped or reordered on either side. -/
theorem C2_order_preservation :
    (∀ st : Storage, (Player.openLog st).cursor = 0) ∧
    (∀ pl pl2 : Player, pl.advance_frame = .ok pl2 →
      pl2.cursor = pl.cursor + 1 ∧ pl2.frames = pl.frames) ∧
    (∀ r : Recorder,
      r.commit_frame.allFrames = r.allFrames ++ [mkFrame r.schema r.current] ∧
      r.commit_frame.frameIndex = r.frameIndex + 1) := by
  refine ⟨fun st => rfl, ?_,
    fun r => ⟨commit_frame_allFrames r, commit_frame_frameIndex r⟩⟩
  intro pl pl2 h
  simp only [Player.advance_frame] at h
  split at h
  · injection h with h2
    subst h2
    exact ⟨rfl, rfl⟩
  · exact absurd h (by simp)

/-- Witness for C2 on a concrete one-frame Player. -/
theorem C2_order_preservation_witness :
    plTiny1.cursor = plTiny.cursor + 1 ∧ plTiny1.frames = plTiny.frames :=
  C2_order_preservation.2.1 plTiny plTiny1 rfl

/-- C3: batch flush count: from a fresh Recorder with positive batch size,
committing exactly frames_before_write frames performs exactly one physical
write; committing frames_before_write + 1 frames and closing performs
exactly two; and close always flushes a trailing partial batch of any
nonzero size as one physical write. -/
theorem C3_batch_flush_count (r : Recorder) (hB : 0 < r.framesBeforeWrite)
    (hbatch : r.batch = []) (hwritten : r.written = []) :
    (r.commitN r.framesBeforeWrite).written.length = 1 ∧
    ((r.commitN (r.framesBeforeWrite + 1)).close).written.length = 2 ∧
    (∀ r2 : Recorder, r2.batch ≠ [] →
      r2.close.written = r2.written ++ [r2.batch]) := by
  have hlen : r.batch.length = 0 := by simp [hbatch]
  have h1 := commitN_counts r.framesBeforeWrite r hB (by omega)
  have h2 := commitN_counts (r.framesBeforeWrite + 1) r hB (by omega)
  refine ⟨?_, ?_, ?_⟩
  · rw [h1.2.2, hlen, hwritten]
    simp [Nat.div_self hB]
  · rw [close_written_length, h2.2.1, h2.2.2, hlen, hwritten]
    simp only [List.length_nil, Nat.zero_add]
    by_cases hB1 : r.framesBeforeWrite = 1
    · rw [hB1]
      norm_num
    · have hB2 : 2 ≤ r.framesBeforeWrite := by omega
      have hm : (r.framesBeforeWrite + 1) % r.framesBeforeWrite = 1 := by
        rw [Nat.add_mod_left]
        exact Nat.mod_eq_of_lt (by omega)
      have hd : (r.framesBeforeWrite + 1) / r.framesBeforeWrite = 1 := by
        rw [Nat.add_div_left _ hB, Nat.div_eq_of_lt (by omega)]
      rw [hm, hd]
      norm_num
  · intro r2 h
    simp [Recorder.close, List.isEmpty_iff, h]

/-- Witness for C3 on a concrete fresh Recorder with batch size 2. -/
theorem C3_batch_flush_count_witness :
    (c3Recorder.commitN c3Recorder.framesBeforeWrite).written.length = 1 ∧
    ((c3Recorder.commitN (c3Recorder.framesBeforeWrite + 1)).close).written.length = 2 ∧
    (∀ r2 : Recorder, r2.batch ≠ [] →
      r2.close.written = r2.written ++ [r2.batch]) :=
  C3_batch_flush_count c3Recorder (by decide) rfl rfl

/-- C5: schema freeze: once finalize_schema has completed on a Recorder,
every subsequent register_channel call fails with SchemaFrozenError,
whatever the path; before finalize_schema the same Recorder is unfrozen and
register_channel fails with DuplicateChannelError exactly when the path is
already registered. -/
theorem C5_schema_freeze (r r2 : Recorder) (hfin : r.finalize_schema = .ok r2) :
    (∀ (path : String) (shape : List Nat) (kind : ChannelKind),
      r2.register_channel path shape kind = .error .schemaFrozenError) ∧
    r.frozen = false ∧
    (∀ (path : String) (shape : List Nat) (kind : ChannelKind),
      (r.register_channel path shape kind = .error .duplicateChannelError ↔
        (r.schema.map Channel.path).contains path = true)) := by
  simp only [Recorder.finalize_schema] at hfin
  by_cases hfr : r.frozen = true
  · rw [if_pos hfr] at hfin
    exact absurd hfin (by simp)
  · have hfr2 : r.frozen = false := by
      cases hfrz : r.frozen
      · rfl
      · exact absurd hfrz hfr
    rw [if_neg hfr] at hfin
    injection hfin with h2
    refine ⟨?_, hfr2, ?_⟩
    · intro path shape kind
      rw [← h2]
      rfl
    · intro path shape kind
      constructor
      · intro h
        by_contra hc
        have hcf : (r.schema.map Channel.path).contains path = false := by
          cases hco : (r.schema.map Channel.path).contains path
          · rfl
          · exact absurd hco hc
        rw [Recorder.register_channel, if_neg (by simp [hfr2]),
          if_neg (by rw [hcf]; exact Bool.false_ne_true)] at h
        exact absurd h (by simp)
      · intro h
        rw [Recorder.register_channel, if_neg (by simp [hfr2]), if_pos h]

/-- Witness for C5 on a concrete Recorder with one registered channel. -/
theorem C5_schema_freeze_witness :
    (c5RecorderFrozen.register_channel "x" [1] .action = .error .schemaFrozenError) ∧
    (c5Recorder.register_channel "x" [1] .action = .error .duplicateChannelError ↔
      (c5Recorder.schema.map Channel.path).contains "x" = true) := by
  have h := C5_schema_freeze c5Recorder c5RecorderFrozen rfl
  exact ⟨h.1 "x" [1] .action, h.2.2 "x" [1] .action⟩

/-- C6: end-of-log: on a Player opened over a log of exactly N frames, N
advance_frame calls succeed and leave the cursor at N, where has_next_frame
is false and one more advance_frame fails with EndOfLogError; after any
smaller number of advances the cursor is below N and has_next_frame is
still true. -/
theorem C6_end_of_log (st : Storage) (N : Nat)
    (hN : (Player.openLog st).frames.length = N) :
    ∃ pl, (Player.openLog st).advanceN N = .ok pl ∧
      pl.cursor = N ∧
      pl.has_next_frame = false ∧
      pl.advance_frame = .error .endOfLogError ∧
      ∀ k, k < N → ∃ plk, (Player.openLog st).advanceN k = .ok plk ∧
        plk.cursor = k ∧ plk.has_next_frame = true := by
  have hc0 : (Player.openLog st).cursor = 0 := rfl
  have hadv := advanceN_ok N (Player.openLog st) (by rw [hc0, hN]; omega)
  have hnlt : ¬(({ Player.openLog st with
      cursor := (Player.openLog st).cursor + N } : Player).cursor <
      ({ Player.openLog st with
      cursor := (Player.openLog st).cursor + N } : Player).frames.length) := by
    show ¬((Player.openLog st).cursor + N < (Player.openLog st).frames.length)
    rw [hc0, hN]
    omega
  refine ⟨_, hadv, ?_, ?_, ?_, ?_⟩
  · show (Player.openLog st).cursor + N = N
    rw [hc0]
    omega
  · simp [Player.has_next_frame, hnlt]
  · simp [Player.advance_frame, hnlt]
  · intro k hk
    have hadvk := advanceN_ok k (Player.openLog st) (by rw [hc0, hN]; omega)
    have hlt : ({ Player.openLog st with
        cursor := (Player.openLog st).cursor + k } : Player).cursor <
        ({ Player.openLog st with
        cursor := (Player.openLog st).cursor + k } : Player).frames.length := by
      show (Player.openLog st).cursor + k < (Player.openLog st).frames.length
      rw [hc0, hN]
      omega
    refine ⟨_, hadvk, ?_, ?_⟩
    · show (Player.openLog st).cursor + k = k
      rw [hc0]
      omega
    · simp [Player.has_next_frame, hlt]

/-- Witness for C6 on a concrete five-frame Storage. -/
theorem C6_end_of_log_witness :
    ∃ pl, (Player.openLog st5).advanceN 5 = .ok pl ∧
      pl.cursor = 5 ∧
      pl.has_next_frame = false ∧
      pl.advance_frame = .error .endOfLogError ∧
      ∀ k, k < 5 → ∃ plk, (Player.openLog st5).advanceN k = .ok plk ∧
        plk.cursor = k ∧ plk.has_next_frame = true :=
  C6_end_of_log st5 5 (by decide)

/-- C4: with one registered channel "mock_action" of shape (1,) and kind
ACTION and frames_before_write = 2, committing three frames each carrying
value [1] and closing causes exactly two physical writes (a full batch of 2,
then the flushed partial batch of 1), and replaying that storage yields the
values [1], [1], [1] in that order. -/
theorem C4_concrete_scenario :
    demoResult = some (2, [2, 1], [[1], [1], [1]]) := by
  decide

/-- C7: read_metadata_blob returns the opaque configuration blob exactly as
recorded at save time and leaves the whole Player state unchanged; a Player
opened on a Recorder's storage carries the Recorder's configuration blob
byte-for-byte. -/
theorem C7_metadata_blob_pure :
    (∀ pl : Player, pl.read_metadata_blob = (pl.metadataBlob, pl)) ∧
    (∀ r : Recorder, (Player.openLog r.storage).metadataBlob = r.configBlob) :=
  ⟨fun _ => rfl, fun _ => rfl⟩

/-- C8: for every input value, Pose._set_value raises NotImplementedError
and leaves the Pose state unchanged; setting the Pose state is
unconditionally unsupported. -/
theorem C8_pose_set_value_raises (s : PoseState) (v : List Int × List Int) :
    Pose.set_value s v =
      (s, .error (.notImplementedError
        "Pose state currently does not support setting.")) :=
  rfl

/-- C9: Pose serialization is a no-op: _dump returns None for every state,
_load returns without modifying the state for every data argument, and a
dump followed by a load leaves the state identical. -/
theorem C9_pose_dump_load_noop :
    (∀ s : PoseState, Pose.dump s = none) ∧
    (∀ (α : Type) (s : PoseState) (d : α), Pose.load s d = s) ∧
    (∀ s : PoseState, Pose.load s (Pose.dump s) = s) :=
  ⟨fun _ => rfl, fun _ _ _ => rfl, fun _ => rfl⟩

/-- C10: the assertion at the entry of run_action_sr passes exactly when the
mode string is save or replay; for every other mode the function raises
AssertionError before performing any other action. -/
theorem C10_mode_assert (mode : String) :
    (modeAssert mode = true ↔ (mode = "save" ∨ mode = "replay")) ∧
    (¬(mode = "save" ∨ mode = "replay") →
      run_action_sr_entry mode = .error .assertionError) ∧
    ((mode = "save" ∨ mode = "replay") → ∃ b, run_action_sr_entry mode = .ok b) := by
  refine ⟨by simp [modeAssert], ?_, ?_⟩
  · intro h
    have hb : modeAssert mode = false := by
      simp only [modeAssert, Bool.or_eq_false_iff, beq_eq_false_iff_ne, ne_eq]
      exact ⟨fun hs => h (Or.inl hs), fun hr => h (Or.inr hr)⟩
    simp [run_action_sr_entry, hb]
  · intro h
    have hb : modeAssert mode = true := by
      simp only [modeAssert, Bool.or_eq_true, beq_iff_eq]
      exact h
    exact ⟨mode == "save", by simp [run_action_sr_entry, hb]⟩

/-- Witness for C10 at the concrete mode string "drive". -/
theorem C10_mode_assert_witness :
    run_action_sr_entry "drive" = .error .assertionError :=
  (C10_mode_assert "drive").2.1 (by decide)
